import Mathlib

/-!
Shallow embedding of the concept-notation parser in
`src/apps/Emphatic/Emphatic.h` (class `Emphatic`), together with theorems
checking the claims of the specification about it.

The token sequence produced by the external lexer is modelled as a
`List Token`; every scanner is a function of the token list and a cursor
position.  Fatal parse errors (`Error(pos, msg)`, which prints a diagnostic
and exits) are modelled as the `.fatal` outcome of an `Except`-based result
type, and an out-of-range direct read of `tokens[pos]` (undefined behaviour
in the C++ source) as the distinguished `.oob` outcome.  Loops of the source
are encoded with an explicit decreasing budget so that every definition is
structurally recursive and kernel-computable.
-/

/-- Token categories exposed by the external lexer: identifier, number,
string, preprocessor directive and symbol (whitespace and comments are
discarded by the lexer and never reach the parser). -/
inductive TokenKind where
  | id
  | num
  | str
  | pp
  | sym
deriving DecidableEq, Repr

/-- A classified token: kind plus its literal text, as produced by the
lexer (`emp::Token` together with the classification predicates of the lexer). -/
structure Token where
  kind : TokenKind
  lexeme : String
deriving DecidableEq, Repr

/-- Models `HasToken(pos)`: the position is inside the token sequence.
(The C++ `int` position is modelled as `Nat`; the `pos >= 0` half of the
source check is automatic.) -/
def HasToken (tokens : List Token) (pos : Nat) : Bool :=
  pos < tokens.length

/-- Models `IsID(pos)`: in range and classified as an identifier. -/
def IsID (tokens : List Token) (pos : Nat) : Bool :=
  HasToken tokens pos &&
    (match tokens[pos]? with
     | some t => t.kind == TokenKind.id
     | none => false)

/-- Models `IsNumber(pos)`: in range and classified as a number. -/
def IsNumber (tokens : List Token) (pos : Nat) : Bool :=
  HasToken tokens pos &&
    (match tokens[pos]? with
     | some t => t.kind == TokenKind.num
     | none => false)

/-- Models `IsString(pos)`: in range and classified as a string literal. -/
def IsString (tokens : List Token) (pos : Nat) : Bool :=
  HasToken tokens pos &&
    (match tokens[pos]? with
     | some t => t.kind == TokenKind.str
     | none => false)

/-- Models `IsPP(pos)`: in range and classified as a preprocessor directive. -/
def IsPP (tokens : List Token) (pos : Nat) : Bool :=
  HasToken tokens pos &&
    (match tokens[pos]? with
     | some t => t.kind == TokenKind.pp
     | none => false)

/-- The null character returned by `AsChar` for out-of-range positions and
non-symbol tokens. -/
def nulChar : Char := Char.ofNat 0

/-- Models `AsChar(pos)`: first character of the lexeme when the token is a symbol,
the null character otherwise (also for out-of-range positions). -/
def AsChar (tokens : List Token) (pos : Nat) : Char :=
  match tokens[pos]? with
  | some t => if t.kind == TokenKind.sym then t.lexeme.toList.headD nulChar else nulChar
  | none => nulChar

/-- Models `AsLexeme(pos)`: the lexeme, or the empty string out of range. -/
def AsLexeme (tokens : List Token) (pos : Nat) : String :=
  match tokens[pos]? with
  | some t => t.lexeme
  | none => ""

/-- Models `ConcatLexemes(start_pos, end_pos)`: the lexemes of tokens
`start_pos, ..., end_pos - 1` joined by single spaces. -/
def ConcatLexemes (tokens : List Token) (start_pos end_pos : Nat) : String :=
  String.intercalate " " (((tokens.drop start_pos).take (end_pos - start_pos)).map Token.lexeme)

/-- The symbols pushed on the open-bracket stack by `ProcessCode`:
`(`, `[`, `\x7b` always, `<` only when `match_angle_bracket` is set. -/
def isOpenSym (mab : Bool) (c : Char) : Bool :=
  c == '(' || c == '[' || c == '\x7b' || (mab && c == '<')

/-- The symbols that pop the open-bracket stack in `ProcessCode`:
`)`, `]`, `\x7d` always, `>` only when `match_angle_bracket` is set. -/
def isCloseSym (mab : Bool) (c : Char) : Bool :=
  c == ')' || c == ']' || c == '\x7d' || (mab && c == '>')

/-- The `while (!finished && pos < tokens.size())` loop of `ProcessCode`
(Emphatic.h lines 131-161), with the open-bracket stack explicit and a
step budget `n` that the caller sets to `tokens.length - pos` (the loop
advances the cursor by one token per iteration, so this budget is exact).
Returns the final cursor position:
  - `;` finishes the scan (cursor past it) unless `multi_line` is set;
  - open symbols are pushed, close symbols pop a non-empty stack;
  - a close symbol on an empty stack finishes the scan with the cursor
    rewound to it (`pos--` in the source);
  - any other token is consumed without effect. -/
def processCodeGo (tokens : List Token) (mab ml : Bool) : Nat → Nat → List Char → Nat
  | 0, pos, _ => pos
  | n + 1, pos, stack =>
    if pos < tokens.length then
      let c := AsChar tokens pos
      if c == ';' then
        if ml then processCodeGo tokens mab ml n (pos + 1) stack else pos + 1
      else if isOpenSym mab c then
        processCodeGo tokens mab ml n (pos + 1) (c :: stack)
      else if isCloseSym mab c then
        match stack with
        | _ :: rest => processCodeGo tokens mab ml n (pos + 1) rest
        | [] => pos
      else
        processCodeGo tokens mab ml n (pos + 1) stack
    else pos

/-- Final cursor position of `ProcessCode(pos, mab, ml)` started with
open-bracket stack `stack` (the source always starts it empty). -/
def processCodeLoop (tokens : List Token) (mab ml : Bool) (pos : Nat) (stack : List Char) : Nat :=
  processCodeGo tokens mab ml (tokens.length - pos) pos stack

/-- Models `ProcessCode(pos, match_angle_bracket, multi_line)` (Emphatic.h lines
127-164): scans from `pos` and returns the consumed text (lexemes joined by
single spaces) together with the final cursor position. -/
def ProcessCode (tokens : List Token) (pos : Nat) (mab ml : Bool) : String × Nat :=
  let e := processCodeLoop tokens mab ml pos []
  (ConcatLexemes tokens pos e, e)

/-- Specification-side abstraction of one `ProcessCode` step on the
bracket-stack *height*: open symbols increment the depth, close symbols
decrement it, everything else leaves it unchanged. -/
def stepDepth (mab : Bool) (c : Char) (d : Nat) : Nat :=
  if isOpenSym mab c then d + 1
  else if isCloseSym mab c then d - 1
  else d

/-- Iterate `stepDepth` over `n` consecutive tokens starting at `pos`. -/
def depthGo (tokens : List Token) (mab : Bool) : Nat → Nat → Nat → Nat
  | 0, _, d => d
  | n + 1, pos, d => depthGo tokens mab n (pos + 1) (stepDepth mab (AsChar tokens pos) d)

/-- Specification-side bracket depth: height of the bracket stack after the
tokens of `[pos, q)` have been processed, starting from height `d`. -/
def depthAt (tokens : List Token) (mab : Bool) (pos q d : Nat) : Nat :=
  depthGo tokens mab (q - pos) pos d

-- Concrete token sequences for the specification scenarios.

/-- Tokens of `foo(a, b))` (unmatched-closer scenario). -/
def fooTokens : List Token :=
  [⟨.id, "foo"⟩, ⟨.sym, "("⟩, ⟨.id, "a"⟩, ⟨.sym, ","⟩, ⟨.id, "b"⟩, ⟨.sym, ")"⟩, ⟨.sym, ")"⟩]

/-- Outcomes of a scanner that does not return normally.
`fatal pos msg` models `Error(pos, msg)` (print diagnostic, `exit(1)`);
`oob pos` models a direct out-of-range read of `tokens[pos]` (undefined
behaviour in the source); `noFuel` is the artefact of the explicit loop
budget and corresponds to no behaviour of the source (all theorems about
looping scanners either supply a sufficient budget or quantify over it). -/
inductive PErr where
  | fatal (pos : Nat) (msg : String)
  | oob (pos : Nat)
  | noFuel
deriving DecidableEq, Repr

/-- Result of a fallible scanner. -/
abbrev PRes (α : Type) := Except PErr α

/-- Models `RequireID(pos, error_msg)` (Emphatic.h line 90-92). -/
def RequireID (tokens : List Token) (pos : Nat) (msg : String) : PRes Unit :=
  if IsID tokens pos then .ok () else .error (.fatal pos msg)

/-- Models `RequireChar(req_char, pos, error_msg)` (Emphatic.h line 99-101). -/
def RequireChar (tokens : List Token) (c : Char) (pos : Nat) (msg : String) : PRes Unit :=
  if AsChar tokens pos == c then .ok () else .error (.fatal pos msg)

/-- The `while (need_id)` loop of `ProcessType` (Emphatic.h lines 173-192).
Note that the source builds the `RequireID` message from `tokens[pos].lexeme`
*directly* (line 178), not through the bounds-checked `AsLexeme`; the message
is built eagerly, before `RequireID` tests the position, so an out-of-range
position is an out-of-range vector read, modelled by `.oob`.  Returns the
cursor position after the identifier part of the type. -/
def processTypeGo (tokens : List Token) : Nat → Nat → PRes Nat
  | 0, _ => .error .noFuel
  | fuel + 1, pos =>
    let pos1 := if AsLexeme tokens pos == "typename" then pos + 1 else pos
    let pos2 := if AsLexeme tokens pos1 == "template" then pos1 + 1 else pos1
    match tokens[pos2]? with
    | none => .error (.oob pos2)
    | some t =>
      if t.kind == TokenKind.id then
        let pos3 := pos2 + 1
        let afterTemplate : PRes Nat :=
          if AsLexeme tokens pos3 == "<" then
            let e := processCodeLoop tokens true false (pos3 + 1) []
            match RequireChar tokens '>' e "Templates must end in a close angle bracket." with
            | .ok _ => .ok (e + 1)
            | .error err => .error err
          else .ok pos3
        match afterTemplate with
        | .error err => .error err
        | .ok pos4 =>
          if AsLexeme tokens pos4 == "::" then processTypeGo tokens fuel (pos4 + 1)
          else .ok pos4
      else
        .error (.fatal pos2 ("Expecting type, but found \x27" ++ t.lexeme ++ "\x27."))

/-- Models `ProcessType(pos)` (Emphatic.h lines 167-200): optional leading `const`,
then the qualified-identifier/template loop, then an optional trailing `&`
or `*`.  Returns the collected text and the final cursor position. -/
def ProcessType (tokens : List Token) (fuel pos : Nat) : PRes (String × Nat) :=
  let pos1 := if AsLexeme tokens pos == "const" then pos + 1 else pos
  match processTypeGo tokens fuel pos1 with
  | .error err => .error err
  | .ok e =>
    let e1 := if AsLexeme tokens e == "&" then e + 1 else e
    let e2 := if AsLexeme tokens e1 == "*" then e1 + 1 else e1
    .ok (ConcatLexemes tokens pos e2, e2)

/-- One function parameter: type text plus optional identifier
(empty when the parameter is unnamed). -/
structure ParamInfo where
  type_name : String
  identifier : String
deriving DecidableEq, Repr

/-- The `while (AsChar(pos) != ')')` loop of `ProcessParams`
(Emphatic.h lines 203-222). -/
def processParamsGo (tokens : List Token) : Nat → Nat → List ParamInfo → PRes (List ParamInfo × Nat)
  | 0, _, _ => .error .noFuel
  | fuel + 1, pos, params =>
    if AsChar tokens pos == ')' then .ok (params, pos)
    else
      let afterComma : PRes Nat :=
        if params.length != 0 then
          match RequireChar tokens ',' pos "Parameters must be separated by commas." with
          | .ok _ => .ok (pos + 1)
          | .error err => .error err
        else .ok pos
      match afterComma with
      | .error err => .error err
      | .ok pos1 =>
        match ProcessType tokens fuel pos1 with
        | .error err => .error err
        | .ok (type_name, pos2) =>
          let idStep : String × Nat :=
            if IsID tokens pos2 then (AsLexeme tokens pos2, pos2 + 1) else ("", pos2)
          processParamsGo tokens fuel idStep.2 (params ++ [⟨type_name, idStep.1⟩])

/-- Insertion into a `std::set<std::string>` modelled as a sorted,
duplicate-free list. -/
def setInsert (s : String) : List String → List String
  | [] => [s]
  | x :: xs => if s < x then s :: x :: xs else if s == x then x :: xs else x :: setInsert s xs

/-- The `while (IsID(pos))` loop of `ProcessIDList` (Emphatic.h lines
225-232), with the exact budget `tokens.length - pos`. -/
def processIDGo (tokens : List Token) : Nat → Nat → List String → List String × Nat
  | 0, pos, ids => (ids, pos)
  | n + 1, pos, ids =>
    if IsID tokens pos then processIDGo tokens n (pos + 1) (setInsert (AsLexeme tokens pos) ids)
    else (ids, pos)

/-- Models `ProcessIDList(pos)`: collect consecutive identifiers into a set. -/
def ProcessIDList (tokens : List Token) (pos : Nat) : List String × Nat :=
  processIDGo tokens (tokens.length - pos) pos []

/-- Descriptor of one concept member (struct `ElementInfo` of AST.h, with
the fields the parser fills in; all default to empty). -/
structure ElementInfo where
  name : String := ""
  type : String := ""
  params : List ParamInfo := []
  attributes : List String := []
  default_code : String := ""
  special_value : String := ""
deriving DecidableEq, Repr

/-- Which of the three collections of the owning concept a completed member
is appended to. -/
inductive MemberKind where
  | typedefM
  | functionM
  | variableM
deriving DecidableEq, Repr

/-- The concept node (`AST_Concept`): name, base-class name and the three
member collections in declaration order (`vars` models the source field
named `variables`, which is a reserved word here). -/
structure ConceptInfo where
  name : String := ""
  base_name : String := ""
  typedefs : List ElementInfo := []
  vars : List ElementInfo := []
  functions : List ElementInfo := []
deriving DecidableEq, Repr

/-- The function-member tail of `ProcessConcept` starting at
`char fun_char = AsChar(pos++);` (Emphatic.h lines 357-377): dispatch on the
token after the parameter list and the attribute identifiers.  `= required ;`
or `= default ;` set `special_value`; `\x7b body \x7d` stores the body text in
`default_code`; anything else is the fatal
"Function body must begin with open brace or assignment" error. -/
def processFunAssign (tokens : List Token) (pos : Nat) (elem : ElementInfo) :
    PRes (ElementInfo × Nat) :=
  let fun_char := AsChar tokens pos
  let pos1 := pos + 1
  if fun_char == '=' then
    match RequireID tokens pos1 "Function must be assigned to \x27required\x27 or \x27default\x27" with
    | .error err => .error err
    | .ok _ =>
      let fun_assign := AsLexeme tokens pos1
      let pos2 := pos1 + 1
      if fun_assign == "required" || fun_assign == "default" then
        match RequireChar tokens ';' pos2 (fun_assign ++ "functions must end in a semi-colon.") with
        | .error err => .error err
        | .ok _ => .ok ({ elem with special_value := fun_assign }, pos2 + 1)
      else .error (.fatal pos2 "Functions can only be set to \x27required\x27 or \x27default\x27")
  else if fun_char == '\x7b' then
    let body := ProcessCode tokens pos1 false true
    match RequireChar tokens '\x7d' body.2
        ("Function body must end with close brace (\x27\x7d\x27) not \x27" ++
          AsLexeme tokens body.2 ++ "\x27.") with
    | .error err => .error err
    | .ok _ => .ok ({ elem with default_code := body.1 }, body.2 + 1)
  else .error (.fatal (pos1 - 1) "Function body must begin with open brace or assignment (\x27\x7b\x27 or \x27=\x27)")

/-- The function-member branch of `ProcessConcept` from just past the open
parenthesis (Emphatic.h lines 350-377): parameter list, close parenthesis,
attribute identifiers, then the `processFunAssign` dispatch. -/
def processFunctionTail (tokens : List Token) (fuel pos : Nat) (elem : ElementInfo) :
    PRes (ElementInfo × Nat) :=
  match processParamsGo tokens fuel pos [] with
  | .error err => .error err
  | .ok (params, pos1) =>
    match RequireChar tokens ')' pos1 "Function arguments must end with a close-parenthesis (\x27)\x27)" with
    | .error err => .error err
    | .ok _ =>
      let ids := ProcessIDList tokens (pos1 + 1)
      processFunAssign tokens ids.2 { elem with params := params, attributes := ids.1 }

/-- One iteration of the concept-body loop of `ProcessConcept`
(Emphatic.h lines 325-392): a `using` alias, a function member, or a
variable member, tagged with the collection it is appended to. -/
def processConceptMember (tokens : List Token) (fuel pos : Nat) :
    PRes ((MemberKind × ElementInfo) × Nat) :=
  match RequireID tokens pos "Concept members can be either functions, variables, or using-statements." with
  | .error err => .error err
  | .ok _ =>
    if AsLexeme tokens pos == "using" then
      let pos1 := pos + 1
      match RequireID tokens pos1 "A \x27using\x27 command must first specify the new type name." with
      | .error err => .error err
      | .ok _ =>
        match ProcessType tokens fuel pos1 with
        | .error err => .error err
        | .ok (tname, pos2) =>
          match RequireChar tokens '=' pos2 "A using statement must provide an equals (\x27=\x27) to assign the type." with
          | .error err => .error err
          | .ok _ =>
            let assigned := ProcessCode tokens (pos2 + 1) false false
            .ok ((.typedefM, { name := tname, type := assigned.1 }), assigned.2)
    else
      match ProcessType tokens fuel pos with
      | .error err => .error err
      | .ok (tname, pos1) =>
        match RequireID tokens pos1 "Functions and variables in concept definition must provide identifier after type name." with
        | .error err => .error err
        | .ok _ =>
          let elem : ElementInfo := { name := AsLexeme tokens pos1, type := tname }
          let pos2 := pos1 + 1
          if AsChar tokens pos2 == '(' then
            match processFunctionTail tokens fuel (pos2 + 1) elem with
            | .error err => .error err
            | .ok (elem1, pos3) => .ok ((.functionM, elem1), pos3)
          else
            if AsChar tokens pos2 == ';' then .ok ((.variableM, elem), pos2 + 1)
            else
              let assigned := ProcessCode tokens pos2 false false
              .ok ((.variableM, { elem with default_code := assigned.1 }), assigned.2)

/-- The `while (AsChar(pos) != '\x7d')` loop of `ProcessConcept`: process
members one at a time, appending each to the collection its kind selects. -/
def conceptLoop (tokens : List Token) : Nat → Nat → ConceptInfo → PRes (ConceptInfo × Nat)
  | 0, _, _ => .error .noFuel
  | fuel + 1, pos, c =>
    if AsChar tokens pos == '\x7d' then .ok (c, pos)
    else
      match processConceptMember tokens fuel pos with
      | .error err => .error err
      | .ok ((kind, elem), pos1) =>
        match kind with
        | .typedefM => conceptLoop tokens fuel pos1 { c with typedefs := c.typedefs ++ [elem] }
        | .functionM => conceptLoop tokens fuel pos1 { c with functions := c.functions ++ [elem] }
        | .variableM => conceptLoop tokens fuel pos1 { c with vars := c.vars ++ [elem] }

/-- Models `ProcessConcept(pos, cur_scope)` (Emphatic.h lines 305-398), entered just
past the `concept` keyword: name, colon, base-class name, open brace, the
member loop, the closing brace and the mandatory trailing semicolon.
Returns the completed concept node and the final cursor position. -/
def ProcessConcept (tokens : List Token) (fuel pos : Nat) : PRes (ConceptInfo × Nat) :=
  match RequireID tokens pos "Concept declaration must be followed by name identifier." with
  | .error err => .error err
  | .ok _ =>
    let cname := AsLexeme tokens pos
    match RequireChar tokens ':' (pos + 1) "Concept names must be followed by a colon (\x27:\x27)." with
    | .error err => .error err
    | .ok _ =>
      match RequireID tokens (pos + 2) "Concept declaration must include name of base class." with
      | .error err => .error err
      | .ok _ =>
        let bname := AsLexeme tokens (pos + 2)
        match RequireChar tokens '\x7b' (pos + 3) "Concepts must be defined in braces (\x27\x7b\x27 and \x27\x7d\x27)." with
        | .error err => .error err
        | .ok _ =>
          match conceptLoop tokens fuel (pos + 4) { name := cname, base_name := bname } with
          | .error err => .error err
          | .ok (c, pos1) =>
            match RequireChar tokens ';' (pos1 + 1) "Concept definitions must end in a semi-colon." with
            | .error err => .error err
            | .ok _ => .ok (c, pos1 + 2)

/-- Output-tree node variants built by the top-level dispatcher
(`AST_PP`, `AST_Class`, `AST_Namespace`, `AST_Using`, `AST_Concept`). -/
inductive ASTNode where
  | ppNode (code : String)
  | clsNode (type name body : String)
  | nsNode (name : String) (children : List ASTNode)
  | usingNode (name type : String)
  | conceptNode (c : ConceptInfo)

/-- Models `ProcessTop(pos, cur_scope)` (Emphatic.h lines 253-302): the
`while (pos < tokens.size() && AsChar(pos) != '\x7d')` loop dispatching on the
leading keyword of each top-level statement; `children` is the list of nodes
appended to the current scope so far. -/
def ProcessTop (tokens : List Token) : Nat → Nat → List ASTNode → PRes (List ASTNode × Nat)
  | 0, _, _ => .error .noFuel
  | fuel + 1, pos, children =>
    if pos < tokens.length && AsChar tokens pos != '\x7d' then
      if IsPP tokens pos then
        ProcessTop tokens fuel (pos + 1) (children ++ [.ppNode (AsLexeme tokens pos ++ "\n")])
      else
        match RequireID tokens pos
            ("Statements in outer scope must begin with an identifier or keyword.  (Found: " ++
              AsLexeme tokens pos ++ ").") with
        | .error err => .error err
        | .ok _ =>
          let cur_lexeme := AsLexeme tokens pos
          let pos1 := pos + 1
          if cur_lexeme == "concept" then
            match ProcessConcept tokens fuel pos1 with
            | .error err => .error err
            | .ok (c, pos2) => ProcessTop tokens fuel pos2 (children ++ [.conceptNode c])
          else if cur_lexeme == "struct" || cur_lexeme == "class" then
            let named : String × Nat :=
              if IsID tokens pos1 then (AsLexeme tokens pos1, pos1 + 1) else ("", pos1)
            match RequireChar tokens '\x7b' named.2
                ("A " ++ cur_lexeme ++ " must be defined in braces (\x27\x7b\x27 and \x27\x7d\x27).") with
            | .error err => .error err
            | .ok _ =>
              let body := ProcessCode tokens (named.2 + 1) false true
              match RequireChar tokens '\x7d' body.2
                  ("The end of a " ++ cur_lexeme ++ " must have a close brace (\x27\x7d\x27).") with
              | .error err => .error err
              | .ok _ =>
                match RequireChar tokens ';' (body.2 + 1)
                    ("A " ++ cur_lexeme ++ " must end with a semi-colon (\x27;\x27).") with
                | .error err => .error err
                | .ok _ =>
                  ProcessTop tokens fuel (body.2 + 2)
                    (children ++ [.clsNode cur_lexeme named.1 body.1])
          else if cur_lexeme == "namespace" then
            let named : String × Nat :=
              if IsID tokens pos1 then (AsLexeme tokens pos1, pos1 + 1) else ("", pos1)
            match RequireChar tokens '\x7b' named.2
                ("A " ++ cur_lexeme ++ " must be defined in braces (\x27\x7b\x27 and \x27\x7d\x27).") with
            | .error err => .error err
            | .ok _ =>
              match ProcessTop tokens fuel (named.2 + 1) [] with
              | .error err => .error err
              | .ok (kids, pos2) =>
                match RequireChar tokens '\x7d' pos2
                    ("The end of a " ++ cur_lexeme ++ " must have a close brace (\x27\x7d\x27).") with
                | .error err => .error err
                | .ok _ =>
                  ProcessTop tokens fuel (pos2 + 1) (children ++ [.nsNode named.1 kids])
          else if cur_lexeme == "using" then
            match RequireID tokens pos1 "A \x27using\x27 command must first specify the new type name." with
            | .error err => .error err
            | .ok _ =>
              match ProcessType tokens fuel pos1 with
              | .error err => .error err
              | .ok (uname, pos2) =>
                match RequireChar tokens '=' pos2
                    "A using statement must provide an equals (\x27=\x27) to assign the type." with
                | .error err => .error err
                | .ok _ =>
                  let assigned := ProcessCode tokens (pos2 + 1) false false
                  ProcessTop tokens fuel assigned.2 (children ++ [.usingNode uname assigned.1])
          else .error (.fatal (pos1 - 1) ("Unknown keyword \x27" ++ cur_lexeme ++ "\x27.  Aborting."))
    else .ok (children, pos)

/-- Models `Process()` (Emphatic.h lines 400-403).  The source declares the cursor
without an initializer (`size_t pos;`) and hands it to `ProcessTop`, so the
starting position is an indeterminate value; it is modelled here as the
explicit parameter `posInit`. -/
def Process (tokens : List Token) (fuel posInit : Nat) : PRes (List ASTNode × Nat) :=
  ProcessTop tokens fuel posInit []

/-- Specification-side selection used to state order preservation: the
members of `ms` (in order) that were tagged for collection `k`. -/
def selectKind (k : MemberKind) (ms : List (MemberKind × ElementInfo)) : List ElementInfo :=
  (ms.filter (fun m => m.1 == k)).map (fun m => m.2)

/-- Specification-side member trace: the sequence of tagged members the
concept-body loop encounters, *in encounter order* — the `m1, m2, ..., mn`
of the order-preservation property.  It runs the same one-member scanner
with the same budget discipline as `conceptLoop`, but records the members
as a single ordered list instead of distributing them over the three
collections.  A run of the loop is related to exactly one such trace. -/
def conceptMembersGo (tokens : List Token) :
    Nat → Nat → PRes (List (MemberKind × ElementInfo) × Nat)
  | 0, _ => .error .noFuel
  | fuel + 1, pos =>
    if AsChar tokens pos == '\x7d' then .ok ([], pos)
    else
      match processConceptMember tokens fuel pos with
      | .error err => .error err
      | .ok ((kind, elem), pos1) =>
        match conceptMembersGo tokens fuel pos1 with
        | .error err => .error err
        | .ok (ms, p) => .ok ((kind, elem) :: ms, p)

/-- Tokens of `f(a; b);`: a semicolon inside an open parenthesis. -/
def semiTokens : List Token :=
  [⟨.id, "f"⟩, ⟨.sym, "("⟩, ⟨.id, "a"⟩, ⟨.sym, ";"⟩, ⟨.id, "b"⟩, ⟨.sym, ")"⟩, ⟨.sym, ";"⟩]

/-- Tokens of `a < b; c > d;` (angle-bracket toggle scenario). -/
def angleTokens : List Token :=
  [⟨.id, "a"⟩, ⟨.sym, "<"⟩, ⟨.id, "b"⟩, ⟨.sym, ";"⟩, ⟨.id, "c"⟩, ⟨.sym, ">"⟩, ⟨.id, "d"⟩, ⟨.sym, ";"⟩]

/-- Tokens of `Foo<Bar>(x)` (template-argument scenario). -/
def fooBarTokens : List Token :=
  [⟨.id, "Foo"⟩, ⟨.sym, "<"⟩, ⟨.id, "Bar"⟩, ⟨.sym, ">"⟩, ⟨.sym, "("⟩, ⟨.id, "x"⟩, ⟨.sym, ")"⟩]

/-- Tokens of `( x } y ;`: an opener `(` closed by the mismatched `\x7d`. -/
def mismatchTokens : List Token :=
  [⟨.sym, "("⟩, ⟨.id, "x"⟩, ⟨.sym, "\x7d"⟩, ⟨.id, "y"⟩, ⟨.sym, ";"⟩]

/-- Tokens of the concept member `void f() = required;`. -/
def reqMemberTokens : List Token :=
  [⟨.id, "void"⟩, ⟨.id, "f"⟩, ⟨.sym, "("⟩, ⟨.sym, ")"⟩, ⟨.sym, "="⟩, ⟨.id, "required"⟩, ⟨.sym, ";"⟩]

/-- Tokens of the concept member `void f() = default;`. -/
def defMemberTokens : List Token :=
  [⟨.id, "void"⟩, ⟨.id, "f"⟩, ⟨.sym, "("⟩, ⟨.sym, ")"⟩, ⟨.sym, "="⟩, ⟨.id, "default"⟩, ⟨.sym, ";"⟩]

/-- Tokens of the concept member `void f() { return; }`. -/
def bodyMemberTokens : List Token :=
  [⟨.id, "void"⟩, ⟨.id, "f"⟩, ⟨.sym, "("⟩, ⟨.sym, ")"⟩, ⟨.sym, "\x7b"⟩,
   ⟨.id, "return"⟩, ⟨.sym, ";"⟩, ⟨.sym, "\x7d"⟩]

/-- Tokens of `concept Fitness : Base \x7b double GetFitness() = required; int age; \x7d;`. -/
def fitnessTokens : List Token :=
  [⟨.id, "concept"⟩, ⟨.id, "Fitness"⟩, ⟨.sym, ":"⟩, ⟨.id, "Base"⟩, ⟨.sym, "\x7b"⟩,
   ⟨.id, "double"⟩, ⟨.id, "GetFitness"⟩, ⟨.sym, "("⟩, ⟨.sym, ")"⟩, ⟨.sym, "="⟩,
   ⟨.id, "required"⟩, ⟨.sym, ";"⟩, ⟨.id, "int"⟩, ⟨.id, "age"⟩, ⟨.sym, ";"⟩,
   ⟨.sym, "\x7d"⟩, ⟨.sym, ";"⟩]

/-- The same concept without the mandatory trailing semicolon. -/
def fitnessNoSemiTokens : List Token := fitnessTokens.take 16

/-- The body of the Fitness concept alone (member loop input). -/
def fitnessBodyTokens : List Token := (fitnessTokens.drop 5).take 11

/-- A single preprocessor token. -/
def ppTokens : List Token := [⟨.pp, "#define X 1"⟩]

/-- A single identifier token. -/
def oneIdTokens : List Token := [⟨.id, "x"⟩]

/-- The concept value `ProcessConcept` builds for the Fitness scenario. -/
def fitnessConceptExpected : ConceptInfo :=
  { name := "Fitness"
    base_name := "Base"
    typedefs := []
    vars := [{ name := "age", type := "int" }]
    functions := [{ name := "GetFitness", type := "double", special_value := "required" }] }

/-- The concept value `ProcessConcept` hands to the member loop for the
Fitness scenario (name and base name filled in, collections empty). -/
def fitnessStartConcept : ConceptInfo :=
  { name := "Fitness", base_name := "Base" }

theorem isOpenSym_semi (mab : Bool) : isOpenSym mab ';' = false := by
  cases mab <;> decide

theorem isCloseSym_semi (mab : Bool) : isCloseSym mab ';' = false := by
  cases mab <;> decide

theorem isOpenSym_ne_semi {mab : Bool} {c : Char} (h : isOpenSym mab c = true) : c ≠ ';' := by
  intro hc
  subst hc
  rw [isOpenSym_semi] at h
  exact Bool.false_ne_true h

theorem isCloseSym_ne_semi {mab : Bool} {c : Char} (h : isCloseSym mab c = true) : c ≠ ';' := by
  intro hc
  subst hc
  rw [isCloseSym_semi] at h
  exact Bool.false_ne_true h

theorem not_open_of_close {mab : Bool} {c : Char} (h : isCloseSym mab c = true) :
    isOpenSym mab c = false := by
  simp only [isCloseSym, Bool.or_eq_true, beq_iff_eq, Bool.and_eq_true] at h
  rcases h with ((h | h) | h) | ⟨hm, h⟩ <;> subst h
  · cases mab <;> decide
  · cases mab <;> decide
  · cases mab <;> decide
  · subst hm
    decide

theorem stepDepth_of_open {mab : Bool} {c : Char} (h : isOpenSym mab c = true) (d : Nat) :
    stepDepth mab c d = d + 1 := by
  simp [stepDepth, h]

theorem stepDepth_of_close {mab : Bool} {c : Char} (h : isCloseSym mab c = true) (d : Nat) :
    stepDepth mab c d = d - 1 := by
  simp [stepDepth, h, not_open_of_close h]

theorem stepDepth_of_other {mab : Bool} {c : Char} (h1 : isOpenSym mab c = false)
    (h2 : isCloseSym mab c = false) (d : Nat) : stepDepth mab c d = d := by
  simp [stepDepth, h1, h2]

theorem depthAt_self (tokens : List Token) (mab : Bool) (pos d : Nat) :
    depthAt tokens mab pos pos d = d := by
  rw [depthAt, Nat.sub_self]
  rfl

theorem depthAt_step (tokens : List Token) (mab : Bool) {pos q : Nat} (d : Nat) (h : pos < q) :
    depthAt tokens mab pos q d
      = depthAt tokens mab (pos + 1) q (stepDepth mab (AsChar tokens pos) d) := by
  have h2 : q - pos = (q - (pos + 1)) + 1 := by omega
  rw [depthAt, h2, depthAt]
  rfl

theorem go_eoi (tokens : List Token) (mab ml : Bool) (n pos : Nat) (stack : List Char)
    (h : ¬ pos < tokens.length) : processCodeGo tokens mab ml (n + 1) pos stack = pos := by
  simp [processCodeGo, h]

theorem go_semi_ml (tokens : List Token) (mab : Bool) (n pos : Nat) (stack : List Char)
    (h : pos < tokens.length) (hc : AsChar tokens pos = ';') :
    processCodeGo tokens mab true (n + 1) pos stack
      = processCodeGo tokens mab true n (pos + 1) stack := by
  simp [processCodeGo, h, hc]

theorem go_semi (tokens : List Token) (mab : Bool) (n pos : Nat) (stack : List Char)
    (h : pos < tokens.length) (hc : AsChar tokens pos = ';') :
    processCodeGo tokens mab false (n + 1) pos stack = pos + 1 := by
  simp [processCodeGo, h, hc]

theorem go_open (tokens : List Token) (mab ml : Bool) (n pos : Nat) (stack : List Char)
    (h : pos < tokens.length) (hc : isOpenSym mab (AsChar tokens pos) = true) :
    processCodeGo tokens mab ml (n + 1) pos stack
      = processCodeGo tokens mab ml n (pos + 1) (AsChar tokens pos :: stack) := by
  have hne : (AsChar tokens pos == ';') = false := beq_eq_false_iff_ne.mpr (isOpenSym_ne_semi hc)
  simp [processCodeGo, h, hne, hc]

theorem go_pop (tokens : List Token) (mab ml : Bool) (n pos : Nat) (x : Char) (rest : List Char)
    (h : pos < tokens.length) (hc : isCloseSym mab (AsChar tokens pos) = true) :
    processCodeGo tokens mab ml (n + 1) pos (x :: rest)
      = processCodeGo tokens mab ml n (pos + 1) rest := by
  have hne : (AsChar tokens pos == ';') = false := beq_eq_false_iff_ne.mpr (isCloseSym_ne_semi hc)
  simp [processCodeGo, h, hne, hc, not_open_of_close hc]

theorem go_stop (tokens : List Token) (mab ml : Bool) (n pos : Nat)
    (h : pos < tokens.length) (hc : isCloseSym mab (AsChar tokens pos) = true) :
    processCodeGo tokens mab ml (n + 1) pos [] = pos := by
  have hne : (AsChar tokens pos == ';') = false := beq_eq_false_iff_ne.mpr (isCloseSym_ne_semi hc)
  simp [processCodeGo, h, hne, hc, not_open_of_close hc]

theorem go_other (tokens : List Token) (mab ml : Bool) (n pos : Nat) (stack : List Char)
    (h : pos < tokens.length) (hs : AsChar tokens pos ≠ ';')
    (h1 : isOpenSym mab (AsChar tokens pos) = false)
    (h2 : isCloseSym mab (AsChar tokens pos) = false) :
    processCodeGo tokens mab ml (n + 1) pos stack
      = processCodeGo tokens mab ml n (pos + 1) stack := by
  have hne : (AsChar tokens pos == ';') = false := beq_eq_false_iff_ne.mpr hs
  simp [processCodeGo, h, hne, h1, h2]

theorem processCodeGo_inv (tokens : List Token) (mab ml : Bool) :
    ∀ n pos stack, tokens.length - pos ≤ n → pos ≤ tokens.length →
      pos ≤ processCodeGo tokens mab ml n pos stack ∧
      processCodeGo tokens mab ml n pos stack ≤ tokens.length ∧
      (∀ q, pos ≤ q → q < processCodeGo tokens mab ml n pos stack →
        isCloseSym mab (AsChar tokens q) = true → 0 < depthAt tokens mab pos q stack.length) ∧
      (∀ q, pos ≤ q → q < processCodeGo tokens mab ml n pos stack → ml = false →
        AsChar tokens q = ';' → q + 1 = processCodeGo tokens mab ml n pos stack) ∧
      (processCodeGo tokens mab ml n pos stack < tokens.length →
        (isCloseSym mab (AsChar tokens (processCodeGo tokens mab ml n pos stack)) = true ∧
          depthAt tokens mab pos (processCodeGo tokens mab ml n pos stack) stack.length = 0) ∨
        (ml = false ∧ pos < processCodeGo tokens mab ml n pos stack ∧
          AsChar tokens (processCodeGo tokens mab ml n pos stack - 1) = ';')) := by
  intro n
  induction n with
  | zero =>
    intro pos stack hn hpos
    have hpe : pos = tokens.length := by omega
    simp only [processCodeGo]
    exact ⟨Nat.le_refl pos, hpos, fun q h1 h2 _ => absurd h2 (by omega),
      fun q h1 h2 _ _ => absurd h2 (by omega), fun hlt => absurd hlt (by omega)⟩
  | succ n ih =>
    intro pos stack hn hpos
    by_cases hlt : pos < tokens.length
    · by_cases hsemi : AsChar tokens pos = ';'
      · cases ml with
        | false =>
          rw [go_semi tokens mab n pos stack hlt hsemi]
          refine ⟨by omega, by omega, ?_, ?_, ?_⟩
          · intro q h1 h2 hcl
            have hq : q = pos := by omega
            subst hq
            rw [hsemi, isCloseSym_semi] at hcl
            exact absurd hcl (by simp)
          · intro q h1 h2 _ _
            omega
          · intro _
            right
            exact ⟨rfl, by omega, by simpa using hsemi⟩
        | true =>
          rw [go_semi_ml tokens mab n pos stack hlt hsemi]
          have hstep : stepDepth mab (AsChar tokens pos) stack.length = stack.length := by
            rw [hsemi]
            exact stepDepth_of_other (isOpenSym_semi mab) (isCloseSym_semi mab) _
          obtain ⟨ih1, ih2, ih3, ih4, ih5⟩ := ih (pos + 1) stack (by omega) (by omega)
          refine ⟨by omega, ih2, ?_, ?_, ?_⟩
          · intro q h1 h2 hcl
            rcases Nat.eq_or_lt_of_le h1 with rfl | h1'
            · rw [hsemi, isCloseSym_semi] at hcl
              exact absurd hcl (by simp)
            · rw [depthAt_step tokens mab _ h1', hstep]
              exact ih3 q h1' h2 hcl
          · intro q h1 h2 hml hsc
            exact absurd hml (by simp)
          · intro hlt2
            rcases ih5 hlt2 with ⟨ha, hb⟩ | ⟨ha, _, _⟩
            · left
              refine ⟨ha, ?_⟩
              rw [depthAt_step tokens mab _ (by omega), hstep]
              exact hb
            · exact absurd ha (by simp)
      · by_cases hopen : isOpenSym mab (AsChar tokens pos) = true
        · rw [go_open tokens mab ml n pos stack hlt hopen]
          have hstep : stepDepth mab (AsChar tokens pos) stack.length
              = (AsChar tokens pos :: stack).length := by
            rw [stepDepth_of_open hopen]
            rfl
          obtain ⟨ih1, ih2, ih3, ih4, ih5⟩ :=
            ih (pos + 1) (AsChar tokens pos :: stack) (by omega) (by omega)
          refine ⟨by omega, ih2, ?_, ?_, ?_⟩
          · intro q h1 h2 hcl
            rcases Nat.eq_or_lt_of_le h1 with rfl | h1'
            · rw [not_open_of_close hcl] at hopen
              exact absurd hopen (by simp)
            · rw [depthAt_step tokens mab _ h1', hstep]
              exact ih3 q h1' h2 hcl
          · intro q h1 h2 hml hsc
            rcases Nat.eq_or_lt_of_le h1 with rfl | h1'
            · exact absurd hsc hsemi
            · exact ih4 q h1' h2 hml hsc
          · intro hlt2
            rcases ih5 hlt2 with ⟨ha, hb⟩ | ⟨ha, hb, hc⟩
            · left
              refine ⟨ha, ?_⟩
              rw [depthAt_step tokens mab _ (by omega), hstep]
              exact hb
            · right
              exact ⟨ha, by omega, hc⟩
        · by_cases hclose : isCloseSym mab (AsChar tokens pos) = true
          · cases stack with
            | nil =>
              rw [go_stop tokens mab ml n pos hlt hclose]
              refine ⟨Nat.le_refl pos, by omega, ?_, ?_, ?_⟩
              · intro q h1 h2 _
                exact absurd h2 (by omega)
              · intro q h1 h2 _ _
                exact absurd h2 (by omega)
              · intro _
                left
                exact ⟨hclose, by rw [depthAt_self]; rfl⟩
            | cons x rest =>
              rw [go_pop tokens mab ml n pos x rest hlt hclose]
              have hstep : stepDepth mab (AsChar tokens pos) (x :: rest).length
                  = rest.length := by
                rw [stepDepth_of_close hclose]
                rfl
              obtain ⟨ih1, ih2, ih3, ih4, ih5⟩ := ih (pos + 1) rest (by omega) (by omega)
              refine ⟨by omega, ih2, ?_, ?_, ?_⟩
              · intro q h1 h2 hcl
                rcases Nat.eq_or_lt_of_le h1 with rfl | h1'
                · rw [depthAt_self]
                  exact Nat.succ_pos _
                · rw [depthAt_step tokens mab _ h1', hstep]
                  exact ih3 q h1' h2 hcl
              · intro q h1 h2 hml hsc
                rcases Nat.eq_or_lt_of_le h1 with rfl | h1'
                · exact absurd hsc hsemi
                · exact ih4 q h1' h2 hml hsc
              · intro hlt2
                rcases ih5 hlt2 with ⟨ha, hb⟩ | ⟨ha, hb, hc⟩
                · left
                  refine ⟨ha, ?_⟩
                  rw [depthAt_step tokens mab _ (by omega), hstep]
                  exact hb
                · right
                  exact ⟨ha, by omega, hc⟩
          · rw [go_other tokens mab ml n pos stack hlt hsemi
              (by simpa using hopen) (by simpa using hclose)]
            have hstep : stepDepth mab (AsChar tokens pos) stack.length = stack.length :=
              stepDepth_of_other (by simpa using hopen) (by simpa using hclose) _
            obtain ⟨ih1, ih2, ih3, ih4, ih5⟩ := ih (pos + 1) stack (by omega) (by omega)
            refine ⟨by omega, ih2, ?_, ?_, ?_⟩
            · intro q h1 h2 hcl
              rcases Nat.eq_or_lt_of_le h1 with rfl | h1'
              · rw [hcl] at hclose
                exact absurd rfl hclose
              · rw [depthAt_step tokens mab _ h1', hstep]
                exact ih3 q h1' h2 hcl
            · intro q h1 h2 hml hsc
              rcases Nat.eq_or_lt_of_le h1 with rfl | h1'
              · exact absurd hsc hsemi
              · exact ih4 q h1' h2 hml hsc
            · intro hlt2
              rcases ih5 hlt2 with ⟨ha, hb⟩ | ⟨ha, hb, hc⟩
              · left
                refine ⟨ha, ?_⟩
                rw [depthAt_step tokens mab _ (by omega), hstep]
                exact hb
              · right
                exact ⟨ha, by omega, hc⟩
    · rw [go_eoi tokens mab ml n pos stack hlt]
      exact ⟨Nat.le_refl pos, hpos, fun q h1 h2 _ => absurd h2 (by omega),
        fun q h1 h2 _ _ => absurd h2 (by omega), fun hlt2 => absurd hlt2 (by omega)⟩

theorem processCodeLoop_unfold (tokens : List Token) (mab ml : Bool) (pos : Nat)
    (stack : List Char) (h : pos < tokens.length) :
    processCodeLoop tokens mab ml pos stack
      = processCodeGo tokens mab ml ((tokens.length - (pos + 1)) + 1) pos stack := by
  rw [processCodeLoop]
  congr 1
  omega

/-- Claim C1: for every token sequence, `ProcessCode` halts exactly at the
first surplus closing bracket — a closer seen while the open-bracket stack is
empty (depth zero) — leaving the cursor at that closer (unconsumed) and
returning the consumed lexemes joined by single spaces; any earlier closer
was seen at positive depth, and any consumed `;` (when `multi_line` is
false) is the final consumed token.  If the scan ends mid-input it ended
at such a surplus closer or at a consumed `;`; otherwise it consumed to
end-of-input without error.  In particular, scanning `foo(a, b))` from `foo`
with `multi_line = false` returns `"foo ( a , b )"` and leaves the cursor at
the second `)`. -/
theorem claim_C1_processCode_stops_at_first_surplus_closer
    (tokens : List Token) (pos : Nat) (mab ml : Bool) (hpos : pos ≤ tokens.length) :
    (ProcessCode tokens pos mab ml
        = (ConcatLexemes tokens pos (processCodeLoop tokens mab ml pos []),
           processCodeLoop tokens mab ml pos []) ∧
      pos ≤ processCodeLoop tokens mab ml pos [] ∧
      processCodeLoop tokens mab ml pos [] ≤ tokens.length ∧
      (∀ q, pos ≤ q → q < processCodeLoop tokens mab ml pos [] →
        isCloseSym mab (AsChar tokens q) = true → 0 < depthAt tokens mab pos q 0) ∧
      (∀ q, pos ≤ q → q < processCodeLoop tokens mab ml pos [] → ml = false →
        AsChar tokens q = ';' → q + 1 = processCodeLoop tokens mab ml pos []) ∧
      (processCodeLoop tokens mab ml pos [] < tokens.length →
        (isCloseSym mab (AsChar tokens (processCodeLoop tokens mab ml pos [])) = true ∧
          depthAt tokens mab pos (processCodeLoop tokens mab ml pos []) 0 = 0) ∨
        (ml = false ∧ pos < processCodeLoop tokens mab ml pos [] ∧
          AsChar tokens (processCodeLoop tokens mab ml pos [] - 1) = ';'))) ∧
    ProcessCode fooTokens 0 false false = ("foo ( a , b )", 6) ∧
    AsChar fooTokens 6 = ')' := by
  refine ⟨⟨rfl, ?_⟩, by decide, by decide⟩
  exact processCodeGo_inv tokens mab ml (tokens.length - pos) pos []
    (Nat.le_refl _) hpos

theorem claim_C1_witness :
    (0 ≤ fooTokens.length) ∧ ProcessCode fooTokens 0 false false = ("foo ( a , b )", 6) :=
  ⟨by decide, (claim_C1_processCode_stops_at_first_surplus_closer
    fooTokens 0 false false (by decide)).2.1⟩

/-- Claim C2 (code bug): contrary to the claim (and to the grammar notes at
the top of Emphatic.h, which say a statement collects everything until a
semicolon outside of parens), the `;` case of `ProcessCode` never consults
the bracket stack:
with `multi_line = false` a `;` ends the scan even while a bracket is open.
Scanning `f(a; b);` stops right after the `;` inside the parenthesis,
returning `"f ( a ;"` with the `(` still unmatched, and a direct step of the
loop at the `;` with `(` on the stack stops at once. -/
theorem claim_C2_semicolon_ignores_bracket_depth :
    ProcessCode semiTokens 0 false false = ("f ( a ;", 4) ∧
    processCodeGo semiTokens false false 4 3 ['('] = 4 := by
  exact ⟨by decide, by decide⟩

/-- Claim C3: `<` is pushed as an open bracket, and `>` pops one, only when
`match_angle_bracket = true`; with it false both are ignored as brackets.
Consequently `ProcessCode` over `a < b; c > d;` with `multi_line = false`
stops at the first top-level `;`, and `ProcessType` over `Foo<Bar>(x)`
consumes through the closing `>`. -/
theorem claim_C3_angle_bracket_toggle :
    (∀ (tokens : List Token) (pos : Nat) (stack : List Char) (ml : Bool),
      pos < tokens.length → AsChar tokens pos = '<' →
      processCodeLoop tokens true ml pos stack
          = processCodeLoop tokens true ml (pos + 1) (AsChar tokens pos :: stack) ∧
      processCodeLoop tokens false ml pos stack
          = processCodeLoop tokens false ml (pos + 1) stack) ∧
    (∀ (tokens : List Token) (pos : Nat) (stack : List Char) (ml : Bool),
      pos < tokens.length → AsChar tokens pos = '>' →
      processCodeLoop tokens false ml pos stack
          = processCodeLoop tokens false ml (pos + 1) stack ∧
      (∀ (x : Char) (rest : List Char), stack = x :: rest →
        processCodeLoop tokens true ml pos stack
          = processCodeLoop tokens true ml (pos + 1) rest) ∧
      (stack = [] → processCodeLoop tokens true ml pos stack = pos)) ∧
    ProcessCode angleTokens 0 false false = ("a < b ;", 4) ∧
    ProcessType fooBarTokens 10 0 = .ok ("Foo < Bar >", 4) := by
  refine ⟨?_, ?_, by decide, rfl⟩
  · intro tokens pos stack ml h hc
    constructor
    · rw [processCodeLoop_unfold tokens true ml pos stack h,
        go_open tokens true ml _ pos stack h (by rw [hc]; decide)]
      rfl
    · rw [processCodeLoop_unfold tokens false ml pos stack h,
        go_other tokens false ml _ pos stack h (by rw [hc]; decide)
          (by rw [hc]; decide) (by rw [hc]; decide)]
      rfl
  · intro tokens pos stack ml h hc
    refine ⟨?_, ?_, ?_⟩
    · rw [processCodeLoop_unfold tokens false ml pos stack h,
        go_other tokens false ml _ pos stack h (by rw [hc]; decide)
          (by rw [hc]; decide) (by rw [hc]; decide)]
      rfl
    · intro x rest hst
      subst hst
      rw [processCodeLoop_unfold tokens true ml pos _ h,
        go_pop tokens true ml _ pos x rest h (by rw [hc]; decide)]
      rfl
    · intro hst
      subst hst
      rw [processCodeLoop_unfold tokens true ml pos [] h,
        go_stop tokens true ml _ pos h (by rw [hc]; decide)]

theorem claim_C3_witness :
    (0 < angleTokens.length ∧ AsChar angleTokens 1 = '<') ∧
    processCodeLoop angleTokens false false 1 []
      = processCodeLoop angleTokens false false 2 [] :=
  ⟨⟨by decide, by decide⟩,
    ((claim_C3_angle_bracket_toggle.1 angleTokens 1 [] false (by decide) (by decide)).2)⟩

/-- Claim C4: a closing bracket (`)`, `]`, `\x7d`, or `>` with
`match_angle_bracket`) pops the stack whenever it is non-empty, with no check
that it matches the bracket that was pushed; an opener `(` closed by `\x7d` is
silently accepted and the scan continues normally (`( x \x7d y ;` is consumed
in full, the mismatched `\x7d` simply cancelling the `(`). -/
theorem claim_C4_mismatched_closer_accepted :
    (∀ (tokens : List Token) (mab ml : Bool) (pos : Nat) (x : Char) (rest : List Char),
      pos < tokens.length → isCloseSym mab (AsChar tokens pos) = true →
      processCodeLoop tokens mab ml pos (x :: rest)
        = processCodeLoop tokens mab ml (pos + 1) rest) ∧
    ProcessCode mismatchTokens 0 false false = ("( x \x7d y ;", 5) := by
  refine ⟨?_, by decide⟩
  intro tokens mab ml pos x rest h hc
  rw [processCodeLoop_unfold tokens mab ml pos _ h, go_pop tokens mab ml _ pos x rest h hc]
  rfl

theorem claim_C4_witness :
    (0 < mismatchTokens.length ∧ isCloseSym false (AsChar mismatchTokens 2) = true) ∧
    processCodeLoop mismatchTokens false false 2 ['(']
      = processCodeLoop mismatchTokens false false 3 [] :=
  ⟨⟨by decide, by decide⟩,
    claim_C4_mismatched_closer_accepted.1 mismatchTokens false false 2 '(' []
      (by decide) (by decide)⟩

/-- Claim C5: scanning the concept function member `void f() = required;`
yields an `ElementInfo` with `special_value = "required"` and no body text;
`void f() = default;` yields `special_value = "default"` and no body; and
the inline-bodied `void f() \x7b return; \x7d` yields `special_value` empty and
`default_code = "return ;"` (the body lexemes joined by single spaces,
without the enclosing braces). -/
theorem claim_C5_required_default_inline_members :
    processConceptMember reqMemberTokens 10 0
      = .ok ((.functionM,
          { name := "f", type := "void", default_code := "", special_value := "required" }), 7) ∧
    processConceptMember defMemberTokens 10 0
      = .ok ((.functionM,
          { name := "f", type := "void", default_code := "", special_value := "default" }), 7) ∧
    processConceptMember bodyMemberTokens 10 0
      = .ok ((.functionM,
          { name := "f", type := "void", default_code := "return ;", special_value := "" }), 8) :=
  ⟨rfl, rfl, rfl⟩

/-- Claim C6: in the function-member tail, after the closing `)` of the parameter list and
the optional attribute identifiers, a next token other than `\x7b` or `=` is a
fatal error; with `=`, a non-identifier is fatal, and an identifier other
than `required` or `default` is fatal — each as an `Error(pos, msg)`
diagnostic naming a token position, and an erroring member aborts the whole
concept loop with the same error (no recovery). -/
theorem claim_C6_illegal_function_tail_fatal :
    (∀ (tokens : List Token) (pos : Nat) (elem : ElementInfo),
      AsChar tokens pos ≠ '=' → AsChar tokens pos ≠ '\x7b' →
      processFunAssign tokens pos elem
        = .error (.fatal pos
            "Function body must begin with open brace or assignment (\x27\x7b\x27 or \x27=\x27)")) ∧
    (∀ (tokens : List Token) (pos : Nat) (elem : ElementInfo),
      AsChar tokens pos = '=' → IsID tokens (pos + 1) = false →
      processFunAssign tokens pos elem
        = .error (.fatal (pos + 1)
            "Function must be assigned to \x27required\x27 or \x27default\x27")) ∧
    (∀ (tokens : List Token) (pos : Nat) (elem : ElementInfo),
      AsChar tokens pos = '=' → IsID tokens (pos + 1) = true →
      AsLexeme tokens (pos + 1) ≠ "required" → AsLexeme tokens (pos + 1) ≠ "default" →
      processFunAssign tokens pos elem
        = .error (.fatal (pos + 2)
            "Functions can only be set to \x27required\x27 or \x27default\x27")) ∧
    (∀ (tokens : List Token) (fuel pos : Nat) (c : ConceptInfo) (err : PErr),
      AsChar tokens pos ≠ '\x7d' → processConceptMember tokens fuel pos = .error err →
      conceptLoop tokens (fuel + 1) pos c = .error err) := by
  refine ⟨?_, ?_, ?_, ?_⟩
  · intro tokens pos elem h1 h2
    simp [processFunAssign, beq_eq_false_iff_ne.mpr h1, beq_eq_false_iff_ne.mpr h2]
  · intro tokens pos elem h1 h2
    simp [processFunAssign, h1, RequireID, h2]
  · intro tokens pos elem h1 h2 h3 h4
    simp [processFunAssign, h1, RequireID, h2,
      beq_eq_false_iff_ne.mpr h3, beq_eq_false_iff_ne.mpr h4]
  · intro tokens fuel pos c err h1 h2
    simp [conceptLoop, beq_eq_false_iff_ne.mpr h1, h2]

theorem claim_C6_witness :
    (AsChar [Token.mk .sym ";"] 0 ≠ '=' ∧ AsChar [Token.mk .sym ";"] 0 ≠ '\x7b' ∧
      processFunAssign [Token.mk .sym ";"] 0 {}
        = .error (.fatal 0
            "Function body must begin with open brace or assignment (\x27\x7b\x27 or \x27=\x27)")) ∧
    (processFunAssign [Token.mk .sym "="] 0 {}
        = .error (.fatal 1 "Function must be assigned to \x27required\x27 or \x27default\x27")) ∧
    (processFunAssign [Token.mk .sym "=", Token.mk .id "foo"] 0 {}
        = .error (.fatal 2 "Functions can only be set to \x27required\x27 or \x27default\x27")) ∧
    conceptLoop [Token.mk .sym ";"] 3 0 {}
      = .error (.fatal 0
          "Concept members can be either functions, variables, or using-statements.") :=
  ⟨⟨by decide, by decide,
      claim_C6_illegal_function_tail_fatal.1 [Token.mk .sym ";"] 0 {} (by decide) (by decide)⟩,
    claim_C6_illegal_function_tail_fatal.2.1 [Token.mk .sym "="] 0 {} (by decide) (by decide),
    claim_C6_illegal_function_tail_fatal.2.2.1 [Token.mk .sym "=", Token.mk .id "foo"] 0 {}
      (by decide) (by decide) (by decide) (by decide),
    claim_C6_illegal_function_tail_fatal.2.2.2 [Token.mk .sym ";"] 2 0 {} _
      (by decide) rfl⟩

/-- Claim C7: parsing
`concept Fitness : Base \x7b double GetFitness() = required; int age; \x7d;`
produces exactly one Concept node with name `Fitness`, base name `Base`, one
function member `\x7bname: GetFitness, type: double, special_value: required\x7d`
and one variable member `\x7bname: age, type: int\x7d`; the closing brace is
consumed and a missing trailing `;` is a fatal error. -/
theorem claim_C7_fitness_concept_parse :
    ProcessTop fitnessTokens 20 0 []
      = .ok ([ASTNode.conceptNode
          { name := "Fitness"
            base_name := "Base"
            typedefs := []
            vars := [{ name := "age", type := "int" }]
            functions := [{ name := "GetFitness", type := "double",
                            special_value := "required" }] }], 17) ∧
    (∃ msg, ProcessTop fitnessNoSemiTokens 20 0 [] = .error (.fatal 16 msg)) :=
  ⟨rfl, ⟨"Concept definitions must end in a semi-colon.", rfl⟩⟩

theorem selectKind_cons_same (k : MemberKind) (e : ElementInfo)
    (ms : List (MemberKind × ElementInfo)) :
    selectKind k ((k, e) :: ms) = e :: selectKind k ms := by
  simp [selectKind]

theorem selectKind_cons_diff {k k' : MemberKind} (h : k' ≠ k) (e : ElementInfo)
    (ms : List (MemberKind × ElementInfo)) :
    selectKind k ((k', e) :: ms) = selectKind k ms := by
  simp [selectKind, h]

/-- Claim C8: every member the concept loop completes is appended to exactly
one of the `typedefs`, `functions` or `vars` collections of the owning
concept, in the order encountered: a successful run of the loop determines
the encounter-order tagged member trace (`conceptMembersGo`, a total
function of the same tokens, budget and start position), and the three
resulting collections are exactly the initial collections extended by the
kind-filtered projections of that one trace.  Filtering the single
deterministic trace preserves its relative order within each collection,
and each trace entry carries one tag, so no member lands in more than one
collection. -/
theorem claim_C8_member_order_partition :
    ∀ (tokens : List Token) (fuel pos : Nat) (c res : ConceptInfo) (p : Nat),
      conceptLoop tokens fuel pos c = .ok (res, p) →
      ∃ ms : List (MemberKind × ElementInfo),
        conceptMembersGo tokens fuel pos = .ok (ms, p) ∧
        res.typedefs = c.typedefs ++ selectKind .typedefM ms ∧
        res.functions = c.functions ++ selectKind .functionM ms ∧
        res.vars = c.vars ++ selectKind .variableM ms := by
  intro tokens fuel
  induction fuel with
  | zero =>
    intro pos c res p h
    simp [conceptLoop] at h
  | succ n ih =>
    intro pos c res p h
    by_cases hbr : AsChar tokens pos = '\x7d'
    · simp [conceptLoop, hbr] at h
      obtain ⟨rfl, rfl⟩ := h
      exact ⟨[], by simp [conceptMembersGo, hbr], by simp [selectKind],
        by simp [selectKind], by simp [selectKind]⟩
    · simp only [conceptLoop, beq_eq_false_iff_ne.mpr hbr, Bool.false_eq_true,
        if_false] at h
      cases hm : processConceptMember tokens n pos with
      | error e =>
        rw [hm] at h
        simp at h
      | ok v =>
        obtain ⟨⟨k, elem⟩, pos1⟩ := v
        rw [hm] at h
        cases k with
        | typedefM =>
          obtain ⟨ms, htr, h1, h2, h3⟩ :=
            ih pos1 { c with typedefs := c.typedefs ++ [elem] } res p h
          refine ⟨(.typedefM, elem) :: ms, ?_, ?_, ?_, ?_⟩
          · simp only [conceptMembersGo, beq_eq_false_iff_ne.mpr hbr,
              Bool.false_eq_true, if_false, hm, htr]
          · rw [selectKind_cons_same]
            simpa [List.append_assoc] using h1
          · rw [selectKind_cons_diff (by decide)]
            simpa using h2
          · rw [selectKind_cons_diff (by decide)]
            simpa using h3
        | functionM =>
          obtain ⟨ms, htr, h1, h2, h3⟩ :=
            ih pos1 { c with functions := c.functions ++ [elem] } res p h
          refine ⟨(.functionM, elem) :: ms, ?_, ?_, ?_, ?_⟩
          · simp only [conceptMembersGo, beq_eq_false_iff_ne.mpr hbr,
              Bool.false_eq_true, if_false, hm, htr]
          · rw [selectKind_cons_diff (by decide)]
            simpa using h1
          · rw [selectKind_cons_same]
            simpa [List.append_assoc] using h2
          · rw [selectKind_cons_diff (by decide)]
            simpa using h3
        | variableM =>
          obtain ⟨ms, htr, h1, h2, h3⟩ :=
            ih pos1 { c with vars := c.vars ++ [elem] } res p h
          refine ⟨(.variableM, elem) :: ms, ?_, ?_, ?_, ?_⟩
          · simp only [conceptMembersGo, beq_eq_false_iff_ne.mpr hbr,
              Bool.false_eq_true, if_false, hm, htr]
          · rw [selectKind_cons_diff (by decide)]
            simpa using h1
          · rw [selectKind_cons_diff (by decide)]
            simpa using h2
          · rw [selectKind_cons_same]
            simpa [List.append_assoc] using h3

theorem claim_C8_witness :
    ∃ ms : List (MemberKind × ElementInfo),
      conceptMembersGo fitnessBodyTokens 10 0 = .ok (ms, 10) ∧
      fitnessConceptExpected.typedefs
          = fitnessStartConcept.typedefs ++ selectKind .typedefM ms ∧
      fitnessConceptExpected.functions
          = fitnessStartConcept.functions ++ selectKind .functionM ms ∧
      fitnessConceptExpected.vars
          = fitnessStartConcept.vars ++ selectKind .variableM ms :=
  claim_C8_member_order_partition fitnessBodyTokens 10 0 fitnessStartConcept
    fitnessConceptExpected 10 rfl

/-- Claim C9 (code bug): `Process()` declares `size_t pos;` *without an
initializer* and passes it to `ProcessTop`, so the top-level parse starts at
an indeterminate position, not at token index 0.  The result genuinely
depends on that value: from position 0 the single preprocessor token becomes
a node, from position 1 the parse returns an empty scope, so `Process` is
equivalent to `ProcessTop` from 0 only if the indeterminate value happens to
be 0. -/
theorem claim_C9_process_uninitialized_cursor :
    Process ppTokens 5 0 = .ok ([.ppNode "#define X 1\n"], 1) ∧
    Process ppTokens 5 1 = .ok ([], 1) ∧
    Process ppTokens 5 0 ≠ Process ppTokens 5 1 := by
  refine ⟨rfl, rfl, ?_⟩
  intro h
  have h1 : (Except.ok ([ASTNode.ppNode "#define X 1\n"], 1) : PRes (List ASTNode × Nat))
      = .ok ([], 1) := h
  simp at h1

/-- Claim C10 (code bug): the positional helpers are total at and past
end-of-input (false, null character, empty string), but `ProcessType` at
end-of-input does *not* produce its "Expecting type" diagnostic without an
out-of-range read: building that message evaluates `tokens[pos].lexeme`
directly (Emphatic.h line 178), an out-of-range vector access, modelled
here by the `.oob` outcome. -/
theorem claim_C10_processType_oob_at_eoi :
    ProcessType ([] : List Token) 5 0 = .error (.oob 0) ∧
    ProcessType oneIdTokens 5 1 = .error (.oob 1) ∧
    HasToken ([] : List Token) 0 = false ∧
    IsID ([] : List Token) 0 = false ∧
    IsNumber ([] : List Token) 0 = false ∧
    IsString ([] : List Token) 0 = false ∧
    IsPP ([] : List Token) 0 = false ∧
    AsChar ([] : List Token) 0 = nulChar ∧
    AsLexeme ([] : List Token) 0 = "" :=
  ⟨rfl, rfl, rfl, rfl, rfl, rfl, rfl, rfl, rfl⟩
